import Mathlib

/-!
# Verification of the foundry-wrap interface-directive engine

This file gives a shallow embedding, in Lean 4, of the script-parsing and
interface-resolution core of the `foundry-wrap` repository (packages
`safesmith` and `foundry_wrap` under `src/`), and proves or refutes the
frozen specification claims about it.

Translation conventions:
* Python strings are Lean `String`s; most scanning is done on `List Char`.
* Python's `re` operations are embedded as dedicated scanners, one per
  concrete pattern appearing in the source, with Python's leftmost-match,
  greedy/lazy semantics reproduced for those patterns.
* Python exceptions are modelled by `Except PyErr`; the `handle_errors`
  decorator from `safesmith/errors.py` is the function `handleAs` below.
* Filesystem and network effects are modelled by explicit state passing:
  a file system is an association list `path ↦ content`, and external
  collaborators (RPC storage reads, the `cast` executable, the contract
  explorer HTTP API, JSON (de)serialisation of ABIs, checksumming) are
  oracle fields of an `Env` record, as §6 of the spec treats them as
  black-box collaborators.
* ASCII inputs are assumed throughout: Python's Unicode-aware `\w`,
  `str.strip`, `str.isalpha` coincide with the ASCII classes used here on
  every string occurring in this development.
-/

namespace FWrap

set_option maxRecDepth 4000

/-! ## Python-level string primitives -/

/-- Opening curly brace character (written via its code point so that
generated Solidity text can be assembled without raw braces). -/
def braceO : Char := Char.ofNat 123

/-- Closing curly brace character. -/
def braceC : Char := Char.ofNat 125

/-- Python `str.strip()` whitespace class (ASCII part). -/
def isPySpace (c : Char) : Bool :=
  c = ' ' || c = '\t' || c = '\n' || c = Char.ofNat 13 || c = Char.ofNat 12 || c = Char.ofNat 11

/-- Regex `\w` class (ASCII): letters, digits, underscore. -/
def isWordChar (c : Char) : Bool :=
  c.isAlpha || c.isDigit || c = '_'

/-- Regex `[A-Z]` class. -/
def isUpperAZ (c : Char) : Bool :=
  'A' ≤ c && c ≤ 'Z'

/-- Regex `[a-fA-F0-9]` class. -/
def isHexDigitPy (c : Char) : Bool :=
  c.isDigit || ('a' ≤ c && c ≤ 'f') || ('A' ≤ c && c ≤ 'F')

/-- `l` starts with the literal character sequence `pre`. -/
def listStarts : List Char → List Char → Bool
  | _, [] => true
  | [], _ :: _ => false
  | c :: cs, p :: ps => c = p && listStarts cs ps

/-- Python `str.strip()` on a character list. -/
def stripChars (l : List Char) : List Char :=
  ((l.dropWhile isPySpace).reverse.dropWhile isPySpace).reverse

/-- Python `str.strip()`. -/
def pyStrip (s : String) : String :=
  String.mk (stripChars s.data)

/-- Python `content.split('\n')`: split at every newline, keeping empty
pieces (`"a\n".split('\n') == ["a", ""]`). -/
def splitNl : List Char → List (List Char)
  | [] => [[]]
  | c :: cs =>
    match splitNl cs with
    | [] => [[]]
    | h :: t => if c = '\n' then [] :: h :: t else (c :: h) :: t

/-- Join lines back with newlines — `'\n'.join(lines)`. -/
def joinNl : List (List Char) → List Char
  | [] => []
  | [l] => l
  | l :: ls => l ++ '\n' :: joinNl ls

theorem length_dropWhile_le {α : Type} (p : α → Bool) (l : List α) :
    (l.dropWhile p).length ≤ l.length := by
  induction l with
  | nil => simp
  | cons c cs ih =>
    rw [List.dropWhile_cons]
    split
    · exact le_trans ih (Nat.le_succ _)
    · simp

/-- Fuelled worker for `splitWsTokens`; every step consumes at least one
character, so the wrapper's fuel is never exhausted. -/
def splitWsGo : Nat → List Char → List (List Char)
  | 0, _ => []
  | _ + 1, [] => []
  | fuel + 1, c :: cs =>
    if isPySpace c then splitWsGo fuel cs
    else (c :: cs.takeWhile (fun d => !isPySpace d)) :: splitWsGo fuel (cs.dropWhile (fun d => !isPySpace d))

/-- Python `str.split()` with no argument: split on whitespace runs,
discarding empty tokens. -/
def splitWsTokens (l : List Char) : List (List Char) :=
  splitWsGo (l.length + 1) l

/-- Python substring test `pat in s` (empty pattern is contained). -/
def hasSub : List Char → List Char → Bool
  | l, pat =>
    match l with
    | [] => pat.isEmpty
    | _ :: rest => listStarts l pat || hasSub rest pat

/-- Substring test on `String`s. -/
def strHasSub (s pat : String) : Bool := hasSub s.data pat.data

/-- Index of the first position at which `pat` starts in `l`, if any. -/
def firstOcc (pat : List Char) : List Char → Option Nat
  | [] => if pat.isEmpty then some 0 else none
  | l@(_ :: rest) =>
    if listStarts l pat then some 0
    else (firstOcc pat rest).map (· + 1)

/-- Index of the last position at which `pat` starts in `l`, if any. -/
def lastOcc (pat : List Char) : List Char → Option Nat
  | [] => if pat.isEmpty then some 0 else none
  | l@(_ :: rest) =>
    match lastOcc pat rest with
    | some k => some (k + 1)
    | none => if listStarts l pat then some 0 else none

/-- Replace every non-overlapping occurrence of `old` (nonempty) by `new`,
scanning left to right and not rescanning replaced text — the semantics of
Python's `str.replace` and of `re.sub` with a literal pattern.  Fuelled;
the wrapper supplies enough fuel for the scan to complete. -/
def replChars (old new : List Char) : Nat → List Char → List Char
  | 0, l => l
  | _ + 1, [] => []
  | fuel + 1, l@(c :: rest) =>
    if !old.isEmpty && listStarts l old then
      new ++ replChars old new fuel (l.drop old.length)
    else
      c :: replChars old new fuel rest

/-- `content.replace(old, new)` / `re.sub(<literal>, new, content)`. -/
def replaceAll (s old new : String) : String :=
  String.mk (replChars old.data new.data s.data.length s.data)

/-- Python `list.insert(idx, x)` including negative-index semantics. -/
def pyInsert {α : Type} (l : List α) (i : Int) (a : α) : List α :=
  let n : Int := l.length
  let j : Nat := if i < 0 then (max (n + i) 0).toNat else min i.toNat l.length
  l.take j ++ a :: l.drop j

/-- First value bound to `k` in an association list (Python `dict` lookup /
`in` test combined). -/
def lookupKey {β : Type} (l : List (String × β)) (k : String) : Option β :=
  match l with
  | [] => none
  | (k', v) :: rest => if k' = k then some v else lookupKey rest k

/-- Python `dict` assignment `d[k] = v`: overwrite in place if the key is
present (keeping its insertion position), else append. -/
def updateKey {β : Type} (l : List (String × β)) (k : String) (v : β) : List (String × β) :=
  match l with
  | [] => [(k, v)]
  | (k', v') :: rest => if k' = k then (k, v) :: rest else (k', v') :: updateKey rest k v

/-! ## Scanners for the concrete regexes used by the source

Each definition reproduces Python `re` semantics (leftmost match,
greedy/lazy quantifiers) for one fixed pattern from the source. -/

/-- Fuelled worker for `findDirs`; every step consumes at least one
character. -/
def findDirsGo : Nat → List Char → List String
  | 0, _ => []
  | _ + 1, [] => []
  | fuel + 1, '@' :: c :: rest2 =>
    if isUpperAZ c then
      let w := rest2.takeWhile isWordChar
      if w.isEmpty then findDirsGo fuel (c :: rest2)
      else String.mk (c :: w) :: findDirsGo fuel (rest2.dropWhile isWordChar)
    else findDirsGo fuel (c :: rest2)
  | _ + 1, ['@'] => []
  | fuel + 1, _ :: rest => findDirsGo fuel rest

/-- `re.finditer(r'@([A-Z]\w+)', line)`: every non-overlapping match's
group 1, left to right.  Note the pattern needs an upper-case letter AND
at least one further word character. -/
def findDirs (l : List Char) : List String :=
  findDirsGo (l.length + 1) l

/-- Fuelled worker for `findAddr`; every step consumes at least one
character. -/
def findAddrGo : Nat → List Char → Option String
  | 0, _ => none
  | _ + 1, [] => none
  | fuel + 1, '0' :: 'x' :: rest =>
    let h40 := rest.take 40
    if h40.length = 40 && h40.all isHexDigitPy then some (String.mk ('0' :: 'x' :: h40))
    else findAddrGo fuel ('x' :: rest)
  | fuel + 1, _ :: rest => findAddrGo fuel rest

/-- `re.search(r'0x[a-fA-F0-9]{40}', line)`: the leftmost 42-character
`0x`-prefixed 40-hex-digit substring, if any. -/
def findAddr (l : List Char) : Option String :=
  findAddrGo (l.length + 1) l

/-- Attempt `import\s*{\s*(\w+)\s*}\s*from` at the head of `l`. -/
def importMatchAt (l : List Char) : Option String :=
  if listStarts l "import".data then
    match (l.drop 6).dropWhile isPySpace with
    | [] => none
    | c :: r2 =>
      if c = braceO then
        let r3 := r2.dropWhile isPySpace
        let w := r3.takeWhile isWordChar
        if w.isEmpty then none
        else
          match (r3.dropWhile isWordChar).dropWhile isPySpace with
          | [] => none
          | c2 :: r5 =>
            if c2 = braceC then
              if listStarts (r5.dropWhile isPySpace) "from".data then some (String.mk w)
              else none
            else none
      else none
  else none

/-- `re.search(r'import\s*{\s*(\w+)\s*}\s*from', line)`: group 1 of the
leftmost match. -/
def importNameSearch : List Char → Option String
  | [] => none
  | l@(_ :: rest) =>
    match importMatchAt l with
    | some w => some w
    | none => importNameSearch rest

/-- Attempt `interface\s+(\w+)\s*{` at the head of `l`. -/
def declWMatchAt (l : List Char) : Option String :=
  if listStarts l "interface".data then
    let r0 := l.drop 9
    if (r0.takeWhile isPySpace).isEmpty then none
    else
      let r1 := r0.dropWhile isPySpace
      let w := r1.takeWhile isWordChar
      if w.isEmpty then none
      else
        match (r1.dropWhile isWordChar).dropWhile isPySpace with
        | c :: _ => if c = braceO then some (String.mk w) else none
        | [] => none
  else none

/-- `re.search(r'interface\s+(\w+)\s*{', content)`: group 1 of the
leftmost match. -/
def declNameW : List Char → Option String
  | [] => none
  | l@(_ :: rest) =>
    match declWMatchAt l with
    | some w => some w
    | none => declNameW rest

/-- Attempt `interface\s+([A-Za-z0-9_\s]+)\s*{` at the head of `l`,
returning the group already `.strip()`-ed (as every caller does).  The
group class overlaps `\s`, so with greedy backtracking the match succeeds
iff the maximal word-or-space run `T` after `interface` starts with a
space, has length at least two, and is followed by `{`; the group is then
`T` minus the leading whitespace run (or `T`'s last character when `T` is
all whitespace). -/
def declWSMatchAt (l : List Char) : Option String :=
  if listStarts l "interface".data then
    let r0 := l.drop 9
    let T := r0.takeWhile (fun c => isWordChar c || isPySpace c)
    match T with
    | [] => none
    | t0 :: trest =>
      if isPySpace t0 && !trest.isEmpty then
        match r0.drop T.length with
        | c :: _ =>
          if c = braceO then
            let grp := if T.all isPySpace then [(t0 :: trest).getLast (List.cons_ne_nil _ _)]
                       else T.dropWhile isPySpace
            some (String.mk (stripChars grp))
          else none
        | [] => none
      else none
  else none

/-- `re.search(r'interface\s+([A-Za-z0-9_\s]+)\s*{', content)` followed by
`.group(1).strip()`. -/
def declNameWS : List Char → Option String
  | [] => none
  | l@(_ :: rest) =>
    match declWSMatchAt l with
    | some w => some w
    | none => declNameWS rest

/-- Literal prefix of the import-stripping regex in `clean_interfaces`. -/
def importStripPat : List Char := "import \"src/test/interfaces/".data

/-- Literal suffix `.sol";` of the import-stripping regex. -/
def solSuffix : List Char := ".sol\";".data

/-- One fuelled pass of
`re.sub(r'import "src/test/interfaces/.*\.sol";\n?', '', content)`:
greedy `.*` cannot cross a newline, so a match extends to the last
`.sol";` on the line, plus an optional trailing newline. -/
def cleanSub1Go : Nat → List Char → List Char
  | 0, l => l
  | _ + 1, [] => []
  | fuel + 1, l@(c :: rest) =>
    if listStarts l importStripPat then
      let after := l.drop importStripPat.length
      let line := after.takeWhile (fun d => d ≠ '\n')
      match lastOcc solSuffix line with
      | some k =>
        let rest' := after.drop (k + solSuffix.length)
        cleanSub1Go fuel (match rest' with | '\n' :: r => r | _ => rest')
      | none => c :: cleanSub1Go fuel rest
    else c :: cleanSub1Go fuel rest

/-- The first `re.sub` of `clean_interfaces`. -/
def cleanSub1 (s : String) : String :=
  String.mk (cleanSub1Go (s.data.length + 1) s.data)

/-- One fuelled pass of
`re.sub(r'interface \w+ \{\n.*?\n\}\n?', '', content, flags=re.DOTALL)`:
lazy `.*?` under DOTALL reaches the first subsequent `\n}`. -/
def cleanSub2Go : Nat → List Char → List Char
  | 0, l => l
  | _ + 1, [] => []
  | fuel + 1, l@(c :: rest) =>
    if listStarts l "interface ".data then
      let r0 := l.drop 10
      let w := r0.takeWhile isWordChar
      let r1 := r0.dropWhile isWordChar
      if !w.isEmpty && listStarts r1 [' ', braceO, '\n'] then
        match firstOcc ['\n', braceC] (r1.drop 3) with
        | some k =>
          let rest' := (r1.drop 3).drop (k + 2)
          cleanSub2Go fuel (match rest' with | '\n' :: r => r | _ => rest')
        | none => c :: cleanSub2Go fuel rest
      else c :: cleanSub2Go fuel rest
    else c :: cleanSub2Go fuel rest

/-- The second `re.sub` of `clean_interfaces`. -/
def cleanSub2 (s : String) : String :=
  String.mk (cleanSub2Go (s.data.length + 1) s.data)

/-! ## Errors and the `handle_errors` decorator (`safesmith/errors.py`) -/

/-- Python exceptions relevant to the embedded code: the three safesmith
domain errors that appear, plus built-ins. -/
inductive PyErr where
  | interfaceE : String → PyErr
  | networkE : String → PyErr
  | scriptE : String → PyErr
  | indexE : String → PyErr
  | valueE : String → PyErr
  | otherE : String → PyErr
deriving Repr, DecidableEq

/-- `str(e)` as used by `handle_errors` when re-wrapping. -/
def pyErrMsg : PyErr → String
  | .interfaceE m => m
  | .networkE m => m
  | .scriptE m => m
  | .indexE m => m
  | .valueE m => m
  | .otherE m => m

/-- `@handle_errors(error_type=ScriptError)`: an escaping exception that is
not already a `ScriptError` is re-raised as one carrying `str(e)`. -/
def handleScriptErrs {α : Type} : Except PyErr α → Except PyErr α
  | .ok a => .ok a
  | .error (.scriptE m) => .error (.scriptE m)
  | .error e => .error (.scriptE (pyErrMsg e))

/-- `@handle_errors(error_type=InterfaceError)`. -/
def handleInterfaceErrs {α : Type} : Except PyErr α → Except PyErr α
  | .ok a => .ok a
  | .error (.interfaceE m) => .error (.interfaceE m)
  | .error e => .error (.interfaceE (pyErrMsg e))

/-- `@handle_errors(error_type=NetworkError)`. -/
def handleNetworkErrs {α : Type} : Except PyErr α → Except PyErr α
  | .ok a => .ok a
  | .error (.networkE m) => .error (.networkE m)
  | .error e => .error (.networkE (pyErrMsg e))

/-! ## ScriptParser (`safesmith/script_parser.py` and
`foundry_wrap/script_parser.py`)

The parser's on-disk script is passed explicitly as `content`; the
collaborating interface manager's preset index is passed as the list of
preset names. -/

/-- The line-skip test shared by both parse loops: blank or
`//`/`/*`/`*`-prefixed (after strip). -/
def commentSkip (st : List Char) : Bool :=
  st.isEmpty || listStarts st "//".data || listStarts st "/*".data || listStarts st "*".data

/-- Line loop of safesmith's `ScriptParser.parse_interfaces`.  Note that
the source tracks `in_contract` but — unlike the `foundry_wrap` variant —
does not consult it when collecting directives.  `line.split()[1]` on a
declaration line raises `IndexError` when the line has a single token. -/
def ssLoop (presets : List String) :
    Bool → List (String × Option String) → List (List Char) →
    Except PyErr (List (String × Option String))
  | _, acc, [] => .ok acc
  | inC, acc, l :: rest =>
    let st := stripChars l
    if commentSkip st then ssLoop presets inC acc rest
    else if listStarts st "contract".data || listStarts st "interface".data then
      match (splitWsTokens st).get? 1 with
      | none => .error (.indexE "list index out of range")
      | some _ => ssLoop presets true acc rest
    else if listStarts st [braceC] then
      ssLoop presets (if inC then false else inC) acc rest
    else
      let acc' := (findDirs st).foldl (fun a n =>
        if (lookupKey a n).isSome then a
        else
          match findAddr st with
          | some ad => a ++ [(n, some ad)]
          | none => if presets.contains n then a ++ [(n, (none : Option String))] else a) acc
      ssLoop presets inC acc' rest

/-- safesmith `ScriptParser.parse_interfaces` (decorated with
`handle_errors(ScriptError)`); `presets` is the key set of the
collaborating manager's preset index (empty when no manager was given). -/
def ssParseInterfaces (content : String) (presets : List String) :
    Except PyErr (List (String × Option String)) :=
  handleScriptErrs (ssLoop presets false [] (splitNl content.data))

/-- Line loop of foundry_wrap's `ScriptParser.parse_interfaces`: directives
are only collected while `in_contract` is true, and the dict assignment
overwrites without a dedup check. -/
def fwLoop :
    Bool → List (String × String) → List (List Char) →
    Except PyErr (List (String × String))
  | _, acc, [] => .ok acc
  | inC, acc, l :: rest =>
    let st := stripChars l
    if st.isEmpty then fwLoop inC acc rest
    else if listStarts st "//".data || listStarts st "/*".data || listStarts st "*".data then
      fwLoop inC acc rest
    else if listStarts st "contract".data || listStarts st "interface".data then
      match (splitWsTokens st).get? 1 with
      | none => .error (.indexE "list index out of range")
      | some _ => fwLoop true acc rest
    else if listStarts st [braceC] then
      fwLoop (if inC then false else inC) acc rest
    else if inC then
      let acc' := (findDirs st).foldl (fun a n =>
        match findAddr st with
        | some ad => updateKey a n ad
        | none => a) acc
      fwLoop inC acc' rest
    else fwLoop inC acc rest

/-- foundry_wrap `ScriptParser.parse_interfaces` (undecorated). -/
def fwParseInterfaces (content : String) : Except PyErr (List (String × String)) :=
  fwLoop false [] (splitNl content.data)

/-- The index scan of safesmith `update_script`: last line whose strip
starts with `import`, and the first line whose strip starts with
`contract` (the loop breaks there); `-1` when absent. -/
def scanImportContract (i : Int) (lastImp : Int) : List (List Char) → Int × Int
  | [] => (lastImp, -1)
  | l :: rest =>
    if listStarts (stripChars l) "import".data then scanImportContract (i + 1) i rest
    else if listStarts (stripChars l) "contract".data then (lastImp, i)
    else scanImportContract (i + 1) lastImp rest

/-- The text of one generated import line,
`import {N} from "test/interfaces/N.sol";`. -/
def importLineFor (n : String) : List Char :=
  "import ".data ++ braceO :: n.data ++ braceC :: " from \"test/interfaces/".data
    ++ n.data ++ ".sol\";".data

/-- safesmith `ScriptParser.update_script` on explicit content: inserts
missing named imports (after the last import line, or before the first
`contract` line preceded by a blank line) and replaces every `@Name` by
`Name`. -/
def updateScript (content : String) (interfaces : List (String × Option String)) : String :=
  let lines := splitNl content.data
  let existing := lines.foldl (fun acc l =>
    if listStarts (stripChars l) "import".data then
      match importNameSearch l with
      | some n => acc ++ [n]
      | none => acc
    else acc) ([] : List String)
  let newImports := (interfaces.map Prod.fst).filter (fun n => !existing.contains n)
  let lines' :=
    if newImports.isEmpty then lines
    else
      let stmts := joinNl (newImports.map importLineFor)
      let idxs := scanImportContract 0 (-1) lines
      let insertIdx : Int := if idxs.1 ≥ 0 then idxs.1 + 1 else idxs.2
      if idxs.1 ≥ 0 then pyInsert lines insertIdx stmts
      else pyInsert (pyInsert lines insertIdx ([] : List Char)) insertIdx stmts
  let content' := joinNl lines'
  String.mk ((interfaces.map Prod.fst).foldl
    (fun c n => replChars ('@' :: n.data) n.data c.length c) content')

/-- safesmith `ScriptParser.clean_interfaces` on explicit content: the two
regex substitutions, in source order. -/
def cleanInterfaces (content : String) : String :=
  cleanSub2 (cleanSub1 content)

/-- One iteration of `check_broadcast_block`'s scan: a non-comment line
whose strip contains `vm.startBroadcast`. -/
def lineMayBroadcast (l : List Char) : Bool :=
  let st := stripChars l
  !(listStarts st "//".data || listStarts st "/*".data || listStarts st "*".data)
    && hasSub st "vm.startBroadcast".data

/-- safesmith `ScriptParser.check_broadcast_block`; `confirm` models the
return value of the interactive `click.confirm` prompt. -/
def checkBroadcastBlock (content : String) (post skipCheck confirm : Bool) :
    Except PyErr Unit :=
  handleScriptErrs (
    if skipCheck then .ok ()
    else
      let found := (splitNl content.data).any lineMayBroadcast
      if !found && post then
        if !confirm then
          .error (.scriptE "Operation cancelled by user due to missing broadcast block in script")
        else .ok ()
      else .ok ())

/-! ## InterfaceManager (`safesmith/interface_manager.py`), pure parts -/

/-- `{` as a one-character string. -/
def braceOStr : String := String.mk [braceO]

/-- `}` as a one-character string. -/
def braceCStr : String := String.mk [braceC]

/-- One ABI parameter.  Dictionary fields are modelled by their lookup
results: `name?` is `none` when the `"name"` key is absent (Python code
reads it with `.get("name", "arg")`), `indexed` folds `.get("indexed",
False)`. -/
structure AbiParam where
  ty : String
  name? : Option String
  indexed : Bool
deriving Repr, DecidableEq

/-- One ABI entry.  `ty` models `item.get("type")` with `""` for an absent
key; `name?` is `none` when absent (`item['name']` then raises
`KeyError`); `stateMutability` keeps the `Option` because the source
interpolates the raw `.get(...)` result (`None` prints as `"None"`). -/
structure AbiItem where
  ty : String
  name? : Option String
  inputs : List AbiParam
  outputs : List AbiParam
  stateMutability : Option String
deriving Repr, DecidableEq

/-- `get_signature` inside `merge_abis`: `""` for non-functions, else
`name(type,type,...)`; `item['name']` raises `KeyError` when absent. -/
def getSignature (item : AbiItem) : Except PyErr String :=
  if item.ty ≠ "function" then .ok ""
  else
    match item.name? with
    | none => .error (.otherE "KeyError: name")
    | some n => .ok (n ++ "(" ++ String.intercalate "," (item.inputs.map (fun p => p.ty)) ++ ")")

/-- The loop of `merge_abis` over `proxy_abi + impl_abi` with its
`seen_signatures` set. -/
def mergeAux : List String → List AbiItem → Except PyErr (List AbiItem)
  | _, [] => .ok []
  | seen, x :: xs =>
    if x.ty = "function" then
      match getSignature x with
      | .error e => .error e
      | .ok s =>
        if s != "" && !seen.contains s then
          match mergeAux (s :: seen) xs with
          | .error e => .error e
          | .ok r => .ok (x :: r)
        else mergeAux seen xs
    else
      match mergeAux seen xs with
      | .error e => .error e
      | .ok r => .ok (x :: r)

/-- `merge_abis(proxy_abi, impl_abi)`. -/
def mergeAbis (proxy impl : List AbiItem) : Except PyErr (List AbiItem) :=
  mergeAux [] (proxy ++ impl)

/-- `re.sub(r'[^a-zA-Z0-9_]', '', name)`. -/
def stripWordChars (s : String) : String :=
  String.mk (s.data.filter isWordChar)

/-- `InterfaceManager.sanitize_interface_name`: strip non-word characters,
prepend `I` when the first remaining character is not a letter.  On an
empty stripped result, `sanitized[0]` raises `IndexError`. -/
def sanitizeInterfaceName (name : String) : Except PyErr String :=
  match (stripWordChars name).data with
  | [] => .error (.indexE "string index out of range")
  | c :: cs => .ok (if c.isAlpha then String.mk (c :: cs) else String.mk ('I' :: c :: cs))

/-- `f"{x}"` on an optional string, where `None` prints as `"None"`. -/
def pyStrOfOpt (o : Option String) : String := o.getD "None"

/-- The ` memory` suffix rule of safesmith `_create_interface_from_abi`. -/
def ssAddMemory (t : String) : String :=
  if t = "string" ∨ t = "bytes" ∨ strHasSub t "[]" then t ++ " memory" else t

/-- The state-mutability suffix shared by both synthesis variants. -/
def mutabilitySuffix (sm : Option String) : String :=
  if sm = some "view" ∨ sm = some "pure" then " " ++ sm.getD ""
  else if sm ≠ some "nonpayable" then " " ++ pyStrOfOpt sm
  else ""

/-- The `returns (...)` clause shared by both synthesis variants. -/
def returnsClause (outputs : List String) : String :=
  match outputs with
  | [] => ""
  | [t] => " returns (" ++ t ++ ")"
  | ts => " returns (" ++ String.intercalate ", " ts ++ ")"

/-- One function line of safesmith `_create_interface_from_abi`. -/
def ssFuncLine (item : AbiItem) : String :=
  let inputs := item.inputs.map (fun p => ssAddMemory p.ty ++ " " ++ p.name?.getD "arg")
  let outputs := item.outputs.map (fun p => ssAddMemory p.ty)
  "    function " ++ item.name?.getD "" ++ "(" ++ String.intercalate ", " inputs
    ++ ") external" ++ mutabilitySuffix item.stateMutability ++ returnsClause outputs ++ ";"

/-- Lines contributed by one ABI entry in safesmith's synthesis loop:
only entries of type `function` with a non-empty name produce a line. -/
def ssItemLines (item : AbiItem) : List String :=
  if item.ty = "function" then
    if item.name?.getD "" = "" then [] else [ssFuncLine item]
  else []

/-- The full line list built by safesmith `_create_interface_from_abi`. -/
def ssAbiLines (name : String) (abi : List AbiItem) : List String :=
  ["// SPDX-License-Identifier: MIT", "pragma solidity ^0.8.0;", "",
    "interface " ++ name ++ " " ++ braceOStr]
    ++ abi.flatMap ssItemLines ++ [braceCStr]

/-- The file content written by safesmith `_create_interface_from_abi`
(after name sanitization, which the caller performs). -/
def ssAbiContent (name : String) (abi : List AbiItem) : String :=
  String.intercalate "\n" (ssAbiLines name abi)

/-- One function line of foundry_wrap `_create_interface_from_abi`
(no ` memory` suffixes in this variant). -/
def fwFuncLine (item : AbiItem) : String :=
  let inputs := item.inputs.map (fun p => p.ty ++ " " ++ p.name?.getD "arg")
  let outputs := item.outputs.map (fun p => p.ty)
  "    function " ++ item.name?.getD "" ++ "(" ++ String.intercalate ", " inputs
    ++ ") external" ++ mutabilitySuffix item.stateMutability ++ returnsClause outputs ++ ";"

/-- One event parameter as rendered by foundry_wrap's event branch,
with `indexed` inserted per the ABI flag. -/
def fwEventParamStr (p : AbiParam) : String :=
  if p.indexed then p.ty ++ " indexed " ++ p.name?.getD "arg"
  else p.ty ++ " " ++ p.name?.getD "arg"

/-- One event line of foundry_wrap `_create_interface_from_abi`. -/
def fwEventLine (item : AbiItem) : String :=
  "    event " ++ item.name?.getD "" ++ "("
    ++ String.intercalate ", " (item.inputs.map fwEventParamStr) ++ ");"

/-- Lines contributed by one ABI entry in foundry_wrap's synthesis loop:
functions and events with non-empty names. -/
def fwItemLines (item : AbiItem) : List String :=
  if item.ty = "function" then
    if item.name?.getD "" = "" then [] else [fwFuncLine item]
  else if item.ty = "event" then
    if item.name?.getD "" = "" then [] else [fwEventLine item]
  else []

/-- The full line list built by foundry_wrap `_create_interface_from_abi`. -/
def fwAbiLines (name : String) (abi : List AbiItem) : List String :=
  ["// SPDX-License-Identifier: MIT", "pragma solidity ^0.8.0;", "",
    "interface " ++ name ++ " " ++ braceOStr]
    ++ abi.flatMap fwItemLines ++ [braceCStr]

/-- The default ERC-20 stub written by `_create_default_interface`,
verbatim from the source f-string. -/
def defaultInterfaceContent (sanitizedName : String) : String :=
  "// SPDX-License-Identifier: UNLICENSED\npragma solidity ^0.8.4;\n\ninterface "
    ++ sanitizedName ++ " \x7b\n"
    ++ "    // Default interface with common ERC20 functions\n"
    ++ "    function balanceOf(address account) external view returns (uint256);\n"
    ++ "    function transfer(address recipient, uint256 amount) external returns (bool);\n"
    ++ "    function allowance(address owner, address spender) external view returns (uint256);\n"
    ++ "    function approve(address spender, uint256 amount) external returns (bool);\n"
    ++ "    function transferFrom(address sender, address recipient, uint256 amount) external returns (bool);\n"
    ++ "    \n"
    ++ "    event Transfer(address indexed from, address indexed to, uint256 value);\n"
    ++ "    event Approval(address indexed owner, address indexed spender, uint256 value);\n"
    ++ "\x7d\n"

/-! ## InterfaceManager, stateful resolution chain

The file system is an association list `path ↦ content`; external
collaborators are oracle fields of `Env` (spec §6 treats them as
black boxes): RPC storage reads (with `get_storage_at`'s
exception-to-`""` handling already folded in, as in the source), the
`cast` executable, the contract-explorer HTTP endpoint, ABI JSON
(de)serialisation, and `eth_utils.to_checksum_address`. -/

/-- File system: association list from path to file content. -/
abbrev FileSys := List (String × String)

/-- A contract-explorer HTTP response: status code plus the parsed
`status`/`message`/`result` JSON envelope. -/
structure HttpResp where
  statusCode : Nat
  jstatus : String
  jmessage : String
  jresult : String

/-- The manager's settings, persistent state and external collaborators.
`httpGet` returns `.error` when `requests.get` raises (e.g. no network),
`castRun` returns `.error stderr` on a non-zero exit, `castExe` is `none`
when no working `cast` executable can be found. -/
structure Env where
  presets : List (String × String)
  fs : FileSys
  localDir : String
  globalDir : String
  overwrite : Bool
  promptYes : Bool
  etherscanKey : String
  storageAt : String → String → String
  toChecksum : String → String
  castExe : Option String
  castRun : String → String → Except String String
  httpGet : String → Except String HttpResp
  jsonLoadsAbi : String → Option (List AbiItem)
  jsonDumps : List AbiItem → String

/-- `InterfaceManager._get_preset_path`: index lookup plus existence
check of the indexed file. -/
def getPresetPath (env : Env) (name : String) : Option String :=
  match lookupKey env.presets name with
  | some p => if (lookupKey env.fs p).isSome then some p else none
  | none => none

/-- The declaration-rename step of `_write_interface_file`: find
`interface\s+(\w+)\s*{` and, when the found name differs, textually
replace `interface <old>` by `interface <new>`. -/
def renameIfaceDecl (content newName : String) : String :=
  match declNameW content.data with
  | some ex =>
    if ex ≠ newName then replaceAll content ("interface " ++ ex) ("interface " ++ newName)
    else content
  | none => content

/-- `InterfaceManager._write_interface_file` (decorated): sanitize the
name, rename the declaration, write the file. -/
def writeInterfaceFile (fs : FileSys) (path content name : String) : Except PyErr FileSys :=
  handleInterfaceErrs (
    match sanitizeInterfaceName name with
    | .error e => .error e
    | .ok sanitized => .ok (updateKey fs path (renameIfaceDecl content sanitized)))

/-- `InterfaceManager._copy_to_local` (decorated): read the source file
(`FileNotFoundError` when absent) and write it to
`<local>/<name>.sol` — note the file name keeps the raw `name`. -/
def copyToLocal (env : Env) (fs : FileSys) (srcPath name : String) : Except PyErr FileSys :=
  handleInterfaceErrs (
    match lookupKey fs srcPath with
    | none => .error (.otherE "FileNotFoundError")
    | some content => writeInterfaceFile fs (env.localDir ++ "/" ++ name ++ ".sol") content name)

/-- `InterfaceManager._create_default_interface` (decorated). -/
def createDefaultInterface (fs : FileSys) (path name : String) : Except PyErr FileSys :=
  handleInterfaceErrs (
    match sanitizeInterfaceName name with
    | .error e => .error e
    | .ok s => .ok (updateKey fs path (defaultInterfaceContent s)))

/-- `InterfaceManager._ensure_interface_file_exists` (decorated): replace
stray compiler-input JSON by the default stub, else align the declared
interface name with the sanitized requested name. -/
def ensureInterfaceFileExists (fs : FileSys) (path name : String) : Except PyErr FileSys :=
  handleInterfaceErrs (
    match lookupKey fs path with
    | none => .ok fs
    | some content =>
      match sanitizeInterfaceName name with
      | .error e => .error e
      | .ok sanitized =>
        if listStarts (stripChars content.data) [braceO]
            ∧ (strHasSub content "\"content\"" ∨ strHasSub content "\"settings\"") then
          createDefaultInterface fs path sanitized
        else
          match declNameWS content.data with
          | some ex =>
            if ex ≠ sanitized then
              .ok (updateKey fs path
                (replaceAll content ("interface " ++ ex) ("interface " ++ sanitized)))
            else .ok fs
          | none => .ok fs)

/-- The Etherscan `getabi` URL built by `_download_abi_from_etherscan`. -/
def abiUrl (env : Env) (address : String) : String :=
  "https://api.etherscan.io/api?module=contract&action=getabi&address=" ++ address
    ++ "&apikey=" ++ env.etherscanKey

/-- `InterfaceManager._download_abi_from_etherscan` (decorated with
`handle_errors(NetworkError)`): a raised `requests` exception becomes a
`NetworkError` and propagates; HTTP or envelope failures return `None`. -/
def downloadAbiFromEtherscan (env : Env) (address : String) : Except PyErr (Option String) :=
  handleNetworkErrs (
    match env.httpGet (abiUrl env address) with
    | .error e => .error (.otherE e)
    | .ok r =>
      if r.statusCode ≠ 200 then .ok none
      else if r.jstatus ≠ "1" ∨ r.jmessage ≠ "OK" then .ok none
      else .ok (some r.jresult))

/-- `Web3.keccak(text="eip1967.proxy.implementation").hex()` — the digest
is a fixed published constant (EIP-1967's slot is this value minus one);
keccak itself is not recomputed here. -/
def eip1967ImplementationSlot : String :=
  "0x360894a13ba1a3210667c828492db98dca3e2076cc3735a920a3ca505d382bbd"

/-- `hex(int(EIP1967_IMPLEMENTATION_SLOT, 16) - 1)`: the standard
EIP-1967 implementation slot. -/
def eip1967ImplementationSlotMinus1 : String :=
  "0x360894a13ba1a3210667c828492db98dca3e2076cc3735a920a3ca505d382bbc"

/-- `Web3.keccak(text="eip1967.proxy.beacon").hex()`. -/
def eip1967BeaconSlot : String :=
  "0xa3f0ad74e5423aebfd80d3ef4346578335a9a72aeaee59ff6cb3582b35133d51"

/-- `Web3.keccak(text="PROXIABLE").hex()` (EIP-1822). -/
def eip1822ProxiableSlot : String :=
  "0xc5f16f0fcc639fa48a6947836d9850f504798523bf8c9a3a87d5876cf622bcf7"

/-- Value of one hex digit. -/
def hexDigitVal (c : Char) : Option Nat :=
  if c.isDigit then some (c.toNat - '0'.toNat)
  else if 'a' ≤ c ∧ c ≤ 'f' then some (c.toNat - 'a'.toNat + 10)
  else if 'A' ≤ c ∧ c ≤ 'F' then some (c.toNat - 'A'.toNat + 10)
  else none

/-- Hex-digit fold; `none` on an empty list or a bad digit. -/
def parseHexCore : List Char → Option Nat → Option Nat
  | [], acc => acc
  | c :: cs, acc =>
    match hexDigitVal c, acc with
    | some d, some a => parseHexCore cs (some (a * 16 + d))
    | some d, none => parseHexCore cs (some d)
    | none, _ => none

/-- Python `int(s, 16)` on the non-negative hex strings occurring here:
optional surrounding whitespace and `0x`/`0X` prefix. -/
def parseHexNat (s : String) : Option Nat :=
  let t := stripChars s.data
  let t := if listStarts t "0x".data ∨ listStarts t "0X".data then t.drop 2 else t
  parseHexCore t none

/-- Last `n` characters of a string (Python `s[-n:]`). -/
def lastNChars (n : Nat) (s : String) : String :=
  String.mk (s.data.drop (s.data.length - n))

/-- One slot probe of `get_implementation_address`: the slot value is
truthy and parses to a non-zero integer iff it yields a checksummed
candidate implementation address. -/
def slotCandidate (env : Env) (addr slot : String) : Except PyErr (Option String) :=
  let v := env.storageAt addr slot
  if v = "" then .ok none
  else
    match parseHexNat v with
    | none => .error (.valueE "invalid literal for int() with base 16")
    | some n =>
      if n ≠ 0 then .ok (some (env.toChecksum ("0x" ++ lastNChars 40 v))) else .ok none

/-- `get_implementation_address`: probe the four standard slots in source
order. -/
def getImplementationAddress (env : Env) (addr : String) : Except PyErr (Option String) :=
  match slotCandidate env addr eip1967ImplementationSlot with
  | .error e => .error e
  | .ok (some a) => .ok (some a)
  | .ok none =>
    match slotCandidate env addr eip1967ImplementationSlotMinus1 with
    | .error e => .error e
    | .ok (some a) => .ok (some a)
    | .ok none =>
      match slotCandidate env addr eip1967BeaconSlot with
      | .error e => .error e
      | .ok (some a) => .ok (some a)
      | .ok none =>
        match slotCandidate env addr eip1822ProxiableSlot with
        | .error e => .error e
        | .ok (some a) => .ok (some a)
        | .ok none => .ok none

/-- Core generation step of `_generate_interface` once the overwrite
prompt has been passed: locate `cast`, run it (output written to the
global path), rename the declared interface to the sanitized name, copy
to the local path. -/
def genCore (env : Env) (fs : FileSys) (addr sanitizedName localP globalP : String) :
    Except PyErr FileSys :=
  match env.castExe with
  | none => .error (.interfaceE "Could not find a working `cast` executable")
  | some exe =>
    match env.castRun exe addr with
    | .error stderr => .error (.interfaceE ("Failed to generate interface: " ++ stderr))
    | .ok content0 =>
      let fs1 := updateKey fs globalP content0
      match declNameWS content0.data with
      | some ex =>
        let content1 := replaceAll content0 ("interface " ++ ex) ("interface " ++ sanitizedName)
        .ok (updateKey (updateKey fs1 globalP content1) localP content1)
      | none => .ok (updateKey fs1 localP content0)

/-- `InterfaceManager._generate_interface` (decorated): paths are derived
from the sanitized name (`_get_interface_paths` sanitizes again —
idempotent); an existing global file with `overwrite` unset prompts, and
a declined prompt copies the global file to local instead. -/
def generateInterface (env : Env) (fs : FileSys) (name addr : String) : Except PyErr FileSys :=
  handleInterfaceErrs (
    match sanitizeInterfaceName name with
    | .error e => .error e
    | .ok sanitized =>
      match sanitizeInterfaceName sanitized with
      | .error e => .error e
      | .ok sanitized2 =>
        let localP := env.localDir ++ "/" ++ sanitized2 ++ ".sol"
        let globalP := env.globalDir ++ "/" ++ sanitized2 ++ ".sol"
        match lookupKey fs globalP, env.overwrite with
        | some gcontent, false =>
          if ¬ env.promptYes then .ok (updateKey fs localP gcontent)
          else genCore env fs addr sanitized localP globalP
        | _, _ => genCore env fs addr sanitized localP globalP)

/-- `InterfaceManager._create_interface_from_abi` (decorated):
`json.loads` the ABI, sanitize the name, write the synthesized content. -/
def createInterfaceFromAbi (env : Env) (fs : FileSys) (path name abiJson : String) :
    Except PyErr FileSys :=
  handleInterfaceErrs (
    match env.jsonLoadsAbi abiJson with
    | none => .error (.valueE "Expecting value: line 1 column 1 (char 0)")
    | some abi =>
      match sanitizeInterfaceName name with
      | .error e => .error e
      | .ok sanitized => .ok (updateKey fs path (ssAbiContent sanitized abi)))

/-- Terminal default-stub step of the chain: stub written to local and
global paths, local path returned. -/
def defaultStep (env : Env) (name localFile globalFile : String) :
    Except PyErr (String × FileSys) :=
  match createDefaultInterface env.fs localFile name with
  | .error e => .error e
  | .ok fs1 =>
    match createDefaultInterface fs1 globalFile name with
    | .error e => .error e
    | .ok fs2 => .ok (localFile, fs2)

/-- Steps 5–7 of the chain: the `try: _generate_interface ... except
InterfaceError:` block with the plain-ABI fallback and the default stub. -/
def afterProxy (env : Env) (name a localFile globalFile : String) :
    Except PyErr (String × FileSys) :=
  match generateInterface env env.fs name a with
  | .ok fs' => .ok (localFile, fs')
  | .error (.interfaceE _) =>
    match downloadAbiFromEtherscan env a with
    | .error e => .error e
    | .ok (some s) =>
      if s ≠ "" then
        match createInterfaceFromAbi env env.fs localFile name s with
        | .error e => .error e
        | .ok fs1 =>
          match createInterfaceFromAbi env fs1 globalFile name s with
          | .error e => .error e
          | .ok fs2 => .ok (localFile, fs2)
      else defaultStep env name localFile globalFile
    | .ok none => defaultStep env name localFile globalFile
  | .error e => .error e

/-- Interface creation from a merged proxy/implementation ABI: written to
the local path then the global path (step 4's tail). -/
def proxyCreate (env : Env) (name localFile globalFile mergedJson : String) :
    Except PyErr (String × FileSys) :=
  match createInterfaceFromAbi env env.fs localFile name mergedJson with
  | .error e => .error e
  | .ok fs1 =>
    match createInterfaceFromAbi env fs1 globalFile name mergedJson with
    | .error e => .error e
    | .ok fs2 => .ok (localFile, fs2)

/-- Steps 2–7 of `process_interface` for an address-based request:
local cache, global cache, proxy-aware on-chain resolution, `cast`,
plain ABI fetch, default stub. -/
def processChain (env : Env) (name a localFile : String) :
    Except PyErr (String × FileSys) :=
  if (lookupKey env.fs localFile).isSome then
    match ensureInterfaceFileExists env.fs localFile name with
    | .error e => .error e
    | .ok fs' => .ok (localFile, fs')
  else
    let globalFile := env.globalDir ++ "/" ++ name ++ ".sol"
    if (lookupKey env.fs globalFile).isSome then
      match ensureInterfaceFileExists env.fs globalFile name with
      | .error e => .error e
      | .ok fs1 =>
        match copyToLocal env fs1 globalFile name with
        | .error e => .error e
        | .ok fs2 => .ok (localFile, fs2)
    else
      match getImplementationAddress env a with
      | .error e => .error e
      | .ok (some implAddr) =>
        match downloadAbiFromEtherscan env a with
        | .error e => .error e
        | .ok proxyAbi =>
          match downloadAbiFromEtherscan env implAddr with
          | .error e => .error e
          | .ok implAbi =>
            match proxyAbi, implAbi with
            | some ps, some qs =>
              if ps ≠ "" ∧ qs ≠ "" then
                match env.jsonLoadsAbi ps, env.jsonLoadsAbi qs with
                | some pa, some qa =>
                  match mergeAbis pa qa with
                  | .error e => .error e
                  | .ok merged => proxyCreate env name localFile globalFile (env.jsonDumps merged)
                | _, _ => .error (.valueE "Expecting value: line 1 column 1 (char 0)")
              else afterProxy env name a localFile globalFile
            | _, _ => afterProxy env name a localFile globalFile
      | .ok none => afterProxy env name a localFile globalFile

/-- Body of `process_interface`: preset short-circuit (`address is None
or preset exists`), the terminal no-address-no-preset `InterfaceError`,
else the address chain. -/
def processCore (env : Env) (name : String) (address : Option String) :
    Except PyErr (String × FileSys) :=
  let localFile := env.localDir ++ "/" ++ name ++ ".sol"
  match getPresetPath env name with
  | some p =>
    match copyToLocal env env.fs p name with
    | .error e => .error e
    | .ok fs' => .ok (localFile, fs')
  | none =>
    match address with
    | none =>
      .error (.interfaceE ("No address provided and " ++ name
        ++ " is not a known preset. Run 'safesmith sync-presets' if you've recently added this preset."))
    | some a => processChain env name a localFile

/-- `InterfaceManager.process_interface` (decorated with
`handle_errors(InterfaceError)`): returns the local path and the updated
file system. -/
def processInterface (env : Env) (name : String) (address : Option String) :
    Except PyErr (String × FileSys) :=
  handleInterfaceErrs (processCore env name address)

/-! ## Concrete fixtures for the claims -/

/-- A script with one `@IERC20(<addr>)` directive inside the contract
body. -/
def c1Script : String :=
  "pragma solidity ^0.8.0;\n\ncontract MyScript \x7b\n    function run() external \x7b\n        IERC20 token = @IERC20(0x1111111111111111111111111111111111111111);\n    \x7d\n\x7d\n"

/-- The 40-hex-digit address used in `c1Script`. -/
def c1Addr : String := "0x1111111111111111111111111111111111111111"

/-- The mapping `parse_interfaces` produces for `c1Script`. -/
def c1Ifaces : List (String × Option String) := [("IERC20", some c1Addr)]

/-- The spec's §8 example address (40 hex digits `A`). -/
def c2Addr : String := "0xAAAAAAAAAAAAAAAAAAAAAAAAAAAAAAAAAAAAAAAA"

/-- A script whose only directive appears before the first `contract`
line. -/
def c2Before : String :=
  "IERC20 token = @IERC20(" ++ c2Addr
    ++ ");\n\ncontract MyScript \x7b\n    function run() external \x7b\n    \x7d\n\x7d\n"

/-- A script with the same directive inside the contract body. -/
def c2Inside : String :=
  "pragma solidity ^0.8.0;\n\ncontract MyScript \x7b\n    IERC20 token = @IERC20("
    ++ c2Addr ++ ");\n\x7d\n"

/-! ## Claim C1 -/

/-- C1 counterexample: for `c1Script`, `update_script(parse_interfaces())`
followed by `clean_interfaces()` does NOT restore the original content —
`clean_interfaces` only strips `import "src/test/interfaces/….sol";`
lines and `interface X {…}` blocks, which never match the named imports
`update_script` inserts, and the `@IERC20` → `IERC20` substitution is not
undone. -/
theorem c1_counterexample :
    ssParseInterfaces c1Script [] = .ok c1Ifaces ∧
    cleanInterfaces (updateScript c1Script c1Ifaces) ≠ c1Script := by
  exact ⟨by rfl, by decide⟩

/-- C1 amended: on `c1Script` the rewritten content contains no match of
either stripping regex, so `clean_interfaces` is the identity on it —
hence idempotent and safe to repeat — but the update/clean round trip
yields the rewritten content, not the original. -/
theorem c1_amended :
    cleanInterfaces (updateScript c1Script c1Ifaces) = updateScript c1Script c1Ifaces
    ∧ updateScript c1Script c1Ifaces ≠ c1Script
    ∧ cleanInterfaces (cleanInterfaces (updateScript c1Script c1Ifaces))
        = cleanInterfaces (updateScript c1Script c1Ifaces) := by
  exact ⟨by rfl, by decide, by rfl⟩

/-! ## Claim C2 -/

/-- C2 counterexample: safesmith's `parse_interfaces` returns the
`@IERC20` directive found BEFORE the first `contract` line (with its
same-line address), because the safesmith variant never consults its
`in_contract` flag when collecting directives. -/
theorem c2_counterexample :
    ssParseInterfaces c2Before [] = .ok [("IERC20", some c2Addr)] ∧
    lookupKey [("IERC20", some c2Addr)] "IERC20" = some (some c2Addr) := by
  exact ⟨by rfl, by rfl⟩

/-- Helper: with `in_contract = false`, the foundry_wrap parse loop leaves
its accumulator and state unchanged on any line that does not start (after
strip) with `contract` or `interface`. -/
theorem fwLoop_skip (l : List Char) (acc : List (String × String)) (rest : List (List Char))
    (h : (listStarts (stripChars l) "contract".data
          || listStarts (stripChars l) "interface".data) = false) :
    fwLoop false acc (l :: rest) = fwLoop false acc rest := by
  rw [fwLoop]
  simp only [h]
  split
  · rfl
  · split
    · rfl
    · simp only [Bool.false_eq_true, if_false]
      split
      · rfl
      · rfl

/-- C2 amended: the body-gating holds for the foundry_wrap variant — any
prefix of lines none of which starts with `contract`/`interface`
contributes nothing to its result, and on the concrete scripts the
pre-contract directive is absent from the foundry_wrap mapping while an
in-body directive with an address is returned — whereas the safesmith
variant returns the in-body directive too (and, per the counterexample,
the pre-contract one as well). -/
theorem c2_amended :
    (∀ (pre rest : List (List Char)) (acc : List (String × String)),
      (∀ l ∈ pre, (listStarts (stripChars l) "contract".data
        || listStarts (stripChars l) "interface".data) = false) →
      fwLoop false acc (pre ++ rest) = fwLoop false acc rest)
    ∧ fwParseInterfaces c2Before = .ok []
    ∧ fwParseInterfaces c2Inside = .ok [("IERC20", c2Addr)]
    ∧ ssParseInterfaces c2Inside [] = .ok [("IERC20", some c2Addr)] := by
  refine ⟨?_, by rfl, by rfl, by rfl⟩
  intro pre
  induction pre with
  | nil => intro rest acc _; rfl
  | cons l pre ih =>
    intro rest acc h
    rw [List.cons_append, fwLoop_skip l acc (pre ++ rest) (h l (by simp))]
    exact ih rest acc (fun x hx => h x (by simp [hx]))

/-- C2 amended witness: the prefix lemma applied to a concrete
one-line prefix. -/
theorem c2_amended_witness :
    fwLoop false [] (["uint x;".data] ++ [[]]) = fwLoop false [] [[]] :=
  c2_amended.1 ["uint x;".data] [[]] [] (by decide)

/-! ## Claim C3 -/

/-- An environment with no cached files, no presets, and no working
network: every storage read yields `""` (the post-exception value of
`get_storage_at`), `cast` cannot be found, and `requests.get` raises. -/
def envC3 : Env where
  presets := []
  fs := []
  localDir := "test/interfaces"
  globalDir := "/root/.safesmith/interfaces"
  overwrite := false
  promptYes := false
  etherscanKey := ""
  storageAt := fun _ _ => ""
  toChecksum := fun s => s
  castExe := none
  castRun := fun _ _ => .error "cast not found"
  httpGet := fun _ => .error "ConnectionError"
  jsonLoadsAbi := fun _ => none
  jsonDumps := fun _ => ""

/-- The same environment except the explorer endpoint answers with an
HTTP 503 instead of raising. -/
def envC3http : Env := { envC3 with httpGet := fun _ => .ok ⟨503, "", "", ""⟩ }

/-- C3: when the explorer fetch RAISES (no network access),
`process_interface` does not fall through to the default stub — the
`NetworkError` produced by `_download_abi_from_etherscan`'s decorator
escapes the `except InterfaceError` handler and `process_interface`
re-raises it as an `InterfaceError` — whereas when the fetch fails
politely (non-200 response) the default ERC-20 stub with the five
signatures is written and returned, which the claim requires in both
situations. -/
theorem c3_totality_failure :
    processInterface envC3 "IFoo" (some c1Addr) = .error (.interfaceE "ConnectionError")
    ∧ processInterface envC3http "IFoo" (some c1Addr)
        = .ok ("test/interfaces/IFoo.sol",
            [("test/interfaces/IFoo.sol", defaultInterfaceContent "IFoo"),
             ("/root/.safesmith/interfaces/IFoo.sol", defaultInterfaceContent "IFoo")])
    ∧ strHasSub (defaultInterfaceContent "IFoo")
        "function balanceOf(address account) external view returns (uint256);" = true
    ∧ strHasSub (defaultInterfaceContent "IFoo")
        "function transfer(address recipient, uint256 amount) external returns (bool);" = true
    ∧ strHasSub (defaultInterfaceContent "IFoo")
        "function allowance(address owner, address spender) external view returns (uint256);" = true
    ∧ strHasSub (defaultInterfaceContent "IFoo")
        "function approve(address spender, uint256 amount) external returns (bool);" = true
    ∧ strHasSub (defaultInterfaceContent "IFoo")
        "function transferFrom(address sender, address recipient, uint256 amount) external returns (bool);" = true
    ∧ declNameW (defaultInterfaceContent "IFoo").data = some "IFoo" := by
  refine ⟨by rfl, by rfl, by rfl, by rfl, by rfl, by rfl, by rfl, by rfl⟩

/-! ## Claim C4 -/

/-- C4: with `skip_broadcast_check = true` the check returns for every
content; with `post = true`, `skip = false`, on content whose every line
is comment-prefixed or free of `vm.startBroadcast`, a declined
confirmation raises the `ScriptError`. -/
theorem c4_broadcast_gate :
    (∀ (content : String) (post confirm : Bool),
      checkBroadcastBlock content post true confirm = .ok ())
    ∧ ∀ content : String,
      (∀ l ∈ splitNl content.data, lineMayBroadcast l = false) →
      checkBroadcastBlock content true false false
        = .error (.scriptE "Operation cancelled by user due to missing broadcast block in script") := by
  constructor
  · intro content post confirm
    rfl
  · intro content h
    have hfound : (splitNl content.data).any lineMayBroadcast = false := by
      rw [List.any_eq_false]
      intro x hx
      simp [h x hx]
    simp [checkBroadcastBlock, hfound, handleScriptErrs]

/-- C4 witness: the gate applied to a script whose only
`vm.startBroadcast` mention is inside a comment. -/
theorem c4_broadcast_gate_witness :
    checkBroadcastBlock "// vm.startBroadcast" false true true = .ok ()
    ∧ checkBroadcastBlock "// vm.startBroadcast" true false false
        = .error (.scriptE "Operation cancelled by user due to missing broadcast block in script") :=
  ⟨c4_broadcast_gate.1 "// vm.startBroadcast" false true,
   c4_broadcast_gate.2 "// vm.startBroadcast" (by decide)⟩

/-! ## Claim C5 -/

/-- C5: preset resolution wins unconditionally.  For ANY environment in
which the preset index maps `name` to an existing file with content `c` —
regardless of what the local or global cache holds, whether a non-null
address is supplied, or how the network oracles behave — the result is
the preset content copied into the local directory (declaration renamed
to the sanitized name), at path `<local>/<name>.sol`.  The quantification
over the whole environment is what expresses "the local cache, global
cache and on-chain steps are not consulted". -/
theorem c5_preset_precedence (env : Env) (name a p c s : String)
    (h1 : lookupKey env.presets name = some p)
    (h2 : lookupKey env.fs p = some c)
    (h3 : sanitizeInterfaceName name = .ok s) :
    processInterface env name (some a)
      = .ok (env.localDir ++ "/" ++ name ++ ".sol",
          updateKey env.fs (env.localDir ++ "/" ++ name ++ ".sol") (renameIfaceDecl c s)) := by
  have hp : getPresetPath env name = some p := by
    simp [getPresetPath, h1, h2]
  simp [processInterface, processCore, hp, copyToLocal, h2, writeInterfaceFile, h3,
    handleInterfaceErrs]

/-- Preset file content used by the C5/C6 witnesses. -/
def c5PresetContent : String := "interface Bar \x7b\n    function x() external;\n\x7d\n"

/-- An environment with a preset for `IFoo`, a STALE local cache file for
the same name, no network, and no `cast`. -/
def envC5 : Env := { envC3 with
  presets := [("IFoo", "/presets/IFoo.sol")]
  fs := [("/presets/IFoo.sol", c5PresetContent),
         ("test/interfaces/IFoo.sol", "stale local cache")] }

/-- C5 witness: despite the non-null address and the existing local cache
file, the preset is copied (renamed to `IFoo`) over the local file. -/
theorem c5_preset_precedence_witness :
    processInterface envC5 "IFoo" (some c1Addr)
      = .ok ("test/interfaces/IFoo.sol",
          [("/presets/IFoo.sol", c5PresetContent),
           ("test/interfaces/IFoo.sol", "interface IFoo \x7b\n    function x() external;\n\x7d\n")]) := by
  have h := c5_preset_precedence envC5 "IFoo" c1Addr "/presets/IFoo.sol" c5PresetContent "IFoo"
    (by rfl) (by rfl) (by rfl)
  exact h.trans (by rfl)

/-! ## Claim C6 -/

/-- C6: with a null address, a name absent from the preset index raises
the `InterfaceError` with the source's message, and a name with a
matching preset succeeds with the preset copy. -/
theorem c6_null_address :
    (∀ (env : Env) (name : String), lookupKey env.presets name = none →
      processInterface env name none
        = .error (.interfaceE ("No address provided and " ++ name
            ++ " is not a known preset. Run 'safesmith sync-presets' if you've recently added this preset.")))
    ∧ ∀ (env : Env) (name p c s : String),
      lookupKey env.presets name = some p →
      lookupKey env.fs p = some c →
      sanitizeInterfaceName name = .ok s →
      processInterface env name none
        = .ok (env.localDir ++ "/" ++ name ++ ".sol",
            updateKey env.fs (env.localDir ++ "/" ++ name ++ ".sol") (renameIfaceDecl c s)) := by
  constructor
  · intro env name h1
    have hp : getPresetPath env name = none := by simp [getPresetPath, h1]
    simp [processInterface, processCore, hp, handleInterfaceErrs]
  · intro env name p c s h1 h2 h3
    have hp : getPresetPath env name = some p := by
      simp [getPresetPath, h1, h2]
    simp [processInterface, processCore, hp, copyToLocal, h2, writeInterfaceFile, h3,
      handleInterfaceErrs]

/-- C6 witness: both halves at concrete environments. -/
theorem c6_null_address_witness :
    processInterface envC3 "IFoo" none
      = .error (.interfaceE "No address provided and IFoo is not a known preset. Run 'safesmith sync-presets' if you've recently added this preset.")
    ∧ processInterface envC5 "IFoo" none
      = .ok ("test/interfaces/IFoo.sol",
          [("/presets/IFoo.sol", c5PresetContent),
           ("test/interfaces/IFoo.sol", "interface IFoo \x7b\n    function x() external;\n\x7d\n")]) := by
  constructor
  · exact (c6_null_address.1 envC3 "IFoo" (by rfl)).trans (by rfl)
  · exact (c6_null_address.2 envC5 "IFoo" "/presets/IFoo.sol" c5PresetContent "IFoo"
      (by rfl) (by rfl) (by rfl)).trans (by rfl)

/-! ## Claim C7 -/

/-- The (total) function signature `name(type,...)` of an ABI item; for
items carrying a name this is the value `get_signature` returns. -/
def fnSig (x : AbiItem) : String :=
  x.name?.getD "" ++ "(" ++ String.intercalate "," (x.inputs.map (fun p => p.ty)) ++ ")"

/-- Spec-side merge, written from the spec's words: walk the
concatenation, keep every non-function item, and keep a function item
only when its signature has not been seen before. -/
def mergeSpecKeep (seen : List String) : List AbiItem → List AbiItem
  | [] => []
  | x :: xs =>
    if x.ty = "function" then
      if fnSig x ∈ seen then mergeSpecKeep seen xs
      else x :: mergeSpecKeep (fnSig x :: seen) xs
    else x :: mergeSpecKeep seen xs

/-- Spec-side merge of a concatenated ABI list. -/
def mergeAbisSpec (l : List AbiItem) : List AbiItem := mergeSpecKeep [] l

/-- The first function item of `l` bearing signature `s`. -/
def firstFnWithSig (l : List AbiItem) (s : String) : Option AbiItem :=
  l.find? (fun y => y.ty == "function" && fnSig y == s)

theorem fnSig_ne_empty (x : AbiItem) : fnSig x ≠ "" := by
  intro h
  have hl := congrArg String.length h
  simp [fnSig, String.length_append] at hl
  exact absurd hl.2 (by decide)

theorem getSignature_of_fn (x : AbiItem) (n : String) (hf : x.ty = "function")
    (hn : x.name? = some n) : getSignature x = .ok (fnSig x) := by
  simp [getSignature, hf, hn, fnSig]

theorem mergeAux_eq_spec (l : List AbiItem) :
    ∀ seen : List String, (∀ x ∈ l, x.ty = "function" → x.name?.isSome) →
    mergeAux seen l = .ok (mergeSpecKeep seen l) := by
  induction l with
  | nil => intro seen _; rfl
  | cons x xs ih =>
    intro seen h
    have hxs : ∀ y ∈ xs, y.ty = "function" → y.name?.isSome :=
      fun y hy => h y (List.mem_cons_of_mem _ hy)
    rw [mergeAux, mergeSpecKeep]
    by_cases hf : x.ty = "function"
    · obtain ⟨n, hn⟩ := Option.isSome_iff_exists.mp (h x (List.mem_cons_self _ _) hf)
      rw [if_pos hf, if_pos hf, getSignature_of_fn x n hf hn]
      have hne : (fnSig x != "") = true := by
        simp [bne_iff_ne, fnSig_ne_empty x]
      by_cases hmem : fnSig x ∈ seen
      · have hc : seen.contains (fnSig x) = true := List.elem_iff.mpr hmem
        rw [if_pos hmem]
        simp only [hne, hc, Bool.not_true, Bool.and_false, Bool.false_eq_true, if_false]
        exact ih seen hxs
      · have hc : seen.contains (fnSig x) = false := by
          rw [← Bool.not_eq_true]
          intro hcc
          exact hmem (List.elem_iff.mp hcc)
        rw [if_neg hmem]
        simp only [hne, hc, Bool.not_false, Bool.and_true, if_true]
        rw [ih (fnSig x :: seen) hxs]
    · rw [if_neg hf, if_neg hf, ih seen hxs]

theorem mergeSpecKeep_filter_nonfn (l : List AbiItem) :
    ∀ seen : List String,
    (mergeSpecKeep seen l).filter (fun x => x.ty != "function")
      = l.filter (fun x => x.ty != "function") := by
  induction l with
  | nil => intro seen; rfl
  | cons x xs ih =>
    intro seen
    rw [mergeSpecKeep]
    by_cases hf : x.ty = "function"
    · rw [if_pos hf]
      have hx : (x.ty != "function") = false := by simp [hf]
      by_cases hmem : fnSig x ∈ seen
      · rw [if_pos hmem, ih seen, List.filter_cons, hx]
        simp
      · rw [if_neg hmem, List.filter_cons, List.filter_cons, hx]
        simp only [Bool.false_eq_true, if_false]
        exact ih _
    · rw [if_neg hf]
      have hx : (x.ty != "function") = true := by simp [hf]
      rw [List.filter_cons, List.filter_cons, hx]
      simp only [if_true]
      rw [ih seen]

theorem mergeSpecKeep_first (l : List AbiItem) :
    ∀ (seen : List String) (y : AbiItem), y ∈ mergeSpecKeep seen l → y.ty = "function" →
    fnSig y ∉ seen ∧ firstFnWithSig l (fnSig y) = some y := by
  induction l with
  | nil => intro seen y hy _; simp [mergeSpecKeep] at hy
  | cons x xs ih =>
    intro seen y hy hyf
    rw [mergeSpecKeep] at hy
    by_cases hf : x.ty = "function"
    · rw [if_pos hf] at hy
      by_cases hmem : fnSig x ∈ seen
      · rw [if_pos hmem] at hy
        obtain ⟨h1, h2⟩ := ih seen y hy hyf
        refine ⟨h1, ?_⟩
        rw [firstFnWithSig, List.find?_cons]
        have hne : (x.ty == "function" && fnSig x == fnSig y) = false := by
          by_cases hxy : fnSig x = fnSig y
          · exact absurd (hxy ▸ hmem) h1
          · simp [hxy]
        rw [hne]
        exact h2
      · rw [if_neg hmem] at hy
        rcases List.mem_cons.mp hy with hy1 | hy2
        · subst hy1
          refine ⟨hmem, ?_⟩
          rw [firstFnWithSig, List.find?_cons]
          have : (y.ty == "function" && fnSig y == fnSig y) = true := by simp [hyf]
          rw [this]
        · obtain ⟨h1, h2⟩ := ih (fnSig x :: seen) y hy2 hyf
          have hys : fnSig y ∉ seen := fun hc => h1 (List.mem_cons_of_mem _ hc)
          have hyx : fnSig x ≠ fnSig y := fun hc => h1 (hc ▸ List.mem_cons_self _ _)
          refine ⟨hys, ?_⟩
          rw [firstFnWithSig, List.find?_cons]
          have hne : (x.ty == "function" && fnSig x == fnSig y) = false := by simp [hyx]
          rw [hne]
          exact h2
    · rw [if_neg hf] at hy
      rcases List.mem_cons.mp hy with hy1 | hy2
      · exact absurd (hy1 ▸ hyf) hf
      · obtain ⟨h1, h2⟩ := ih seen y hy2 hyf
        refine ⟨h1, ?_⟩
        rw [firstFnWithSig, List.find?_cons]
        have hne : (x.ty == "function" && fnSig x == fnSig y) = false := by simp [hf]
        rw [hne]
        exact h2

theorem mergeSpecKeep_complete (l : List AbiItem) :
    ∀ (seen : List String) (x : AbiItem), x ∈ l → x.ty = "function" → fnSig x ∉ seen →
    ∃ y ∈ mergeSpecKeep seen l, y.ty = "function" ∧ fnSig y = fnSig x := by
  induction l with
  | nil => intro seen x hx; simp at hx
  | cons a xs ih =>
    intro seen x hx hxf hxs
    rw [mergeSpecKeep]
    rcases List.mem_cons.mp hx with hx1 | hx2
    · subst hx1
      rw [if_pos hxf, if_neg hxs]
      exact ⟨x, List.mem_cons_self _ _, hxf, rfl⟩
    · by_cases hf : a.ty = "function"
      · rw [if_pos hf]
        by_cases hmem : fnSig a ∈ seen
        · rw [if_pos hmem]
          exact ih seen x hx2 hxf hxs
        · rw [if_neg hmem]
          by_cases hax : fnSig a = fnSig x
          · exact ⟨a, List.mem_cons_self _ _, hf, hax⟩
          · have : fnSig x ∉ fnSig a :: seen := by
              intro hc
              rcases List.mem_cons.mp hc with hc1 | hc2
              · exact hax hc1.symm
              · exact hxs hc2
            obtain ⟨y, hy, hyp⟩ := ih (fnSig a :: seen) x hx2 hxf this
            exact ⟨y, List.mem_cons_of_mem _ hy, hyp⟩
      · rw [if_neg hf]
        obtain ⟨y, hy, hyp⟩ := ih seen x hx2 hxf hxs
        exact ⟨y, List.mem_cons_of_mem _ hy, hyp⟩

theorem mergeSpecKeep_nodup (l : List AbiItem) :
    ∀ seen : List String,
    (((mergeSpecKeep seen l).filter (fun x => x.ty == "function")).map fnSig).Nodup
    ∧ ∀ s ∈ ((mergeSpecKeep seen l).filter (fun x => x.ty == "function")).map fnSig,
        s ∉ seen := by
  induction l with
  | nil => intro seen; exact ⟨List.nodup_nil, by simp [mergeSpecKeep]⟩
  | cons x xs ih =>
    intro seen
    rw [mergeSpecKeep]
    by_cases hf : x.ty = "function"
    · rw [if_pos hf]
      by_cases hmem : fnSig x ∈ seen
      · rw [if_pos hmem]; exact ih seen
      · rw [if_neg hmem]
        obtain ⟨hnd, hsub⟩ := ih (fnSig x :: seen)
        have hx : (x.ty == "function") = true := by simp [hf]
        rw [List.filter_cons, hx]
        simp only [if_true, List.map_cons]
        constructor
        · rw [List.nodup_cons]
          refine ⟨fun hc => ?_, hnd⟩
          exact (hsub _ hc) (List.mem_cons_self _ _)
        · intro s hs
          rcases List.mem_cons.mp hs with hs1 | hs2
          · exact hs1 ▸ hmem
          · exact fun hc => (hsub s hs2) (List.mem_cons_of_mem _ hc)
    · rw [if_neg hf]
      obtain ⟨hnd, hsub⟩ := ih seen
      have hx : (x.ty == "function") = false := by simp [hf]
      rw [List.filter_cons, hx]
      simp only [Bool.false_eq_true, if_false]
      exact ⟨hnd, hsub⟩

/-- A named function entry as in the spec's §8 merge example. -/
def c7Fn (n : String) : AbiItem :=
  { ty := "function", name? := some n, inputs := [], outputs := [], stateMutability := none }

/-- The spec example's proxy ABI: `[{function implementation}, {function
upgradeTo}]`. -/
def c7ProxyAbi : List AbiItem := [c7Fn "implementation", c7Fn "upgradeTo"]

/-- The spec example's implementation ABI: `[{function decimals},
{function implementation}]`. -/
def c7ImplAbi : List AbiItem := [c7Fn "decimals", c7Fn "implementation"]

/-- C7: `merge_abis` equals the spec-side first-occurrence merge of the
concatenation `proxy ++ impl` (so proxy entries win), which passes every
non-function item through unfiltered, keeps exactly the first occurrence
of each function signature, loses no signature, and never duplicates a
signature; on the spec's example the result is the three entries
`implementation`, `upgradeTo`, `decimals`. -/
theorem c7_merge_first_occurrence :
    (∀ p q : List AbiItem,
      (∀ x ∈ p ++ q, x.ty = "function" → x.name?.isSome) →
      mergeAbis p q = .ok (mergeAbisSpec (p ++ q))
      ∧ (mergeAbisSpec (p ++ q)).filter (fun x => x.ty != "function")
          = (p ++ q).filter (fun x => x.ty != "function")
      ∧ (∀ y ∈ mergeAbisSpec (p ++ q), y.ty = "function" →
          firstFnWithSig (p ++ q) (fnSig y) = some y)
      ∧ (∀ x ∈ p ++ q, x.ty = "function" →
          ∃ y ∈ mergeAbisSpec (p ++ q), y.ty = "function" ∧ fnSig y = fnSig x)
      ∧ (((mergeAbisSpec (p ++ q)).filter (fun x => x.ty == "function")).map fnSig).Nodup)
    ∧ mergeAbis c7ProxyAbi c7ImplAbi
        = .ok [c7Fn "implementation", c7Fn "upgradeTo", c7Fn "decimals"]
    ∧ [c7Fn "implementation", c7Fn "upgradeTo", c7Fn "decimals"].length = 3 := by
  refine ⟨?_, by rfl, by rfl⟩
  intro p q h
  refine ⟨mergeAux_eq_spec (p ++ q) [] h, mergeSpecKeep_filter_nonfn (p ++ q) [],
    fun y hy hyf => (mergeSpecKeep_first (p ++ q) [] y hy hyf).2,
    fun x hx hxf => mergeSpecKeep_complete (p ++ q) [] x hx hxf (by simp),
    (mergeSpecKeep_nodup (p ++ q) []).1⟩

/-- C7 witness: the general part applied to the spec's example ABIs. -/
theorem c7_merge_first_occurrence_witness :
    mergeAbis c7ProxyAbi c7ImplAbi = .ok (mergeAbisSpec (c7ProxyAbi ++ c7ImplAbi)) :=
  (c7_merge_first_occurrence.1 c7ProxyAbi c7ImplAbi (by decide)).1

/-! ## Claim C8 -/

theorem listStarts_append_left (pat : List Char) :
    ∀ l₁ l₂ : List Char, pat.length ≤ l₁.length →
    listStarts (l₁ ++ l₂) pat = listStarts l₁ pat := by
  induction pat with
  | nil => intro l₁ l₂ _; cases l₁ <;> simp [listStarts]
  | cons p ps ih =>
    intro l₁ l₂ h
    cases l₁ with
    | nil => simp at h
    | cons c cs =>
      rw [List.cons_append, listStarts, listStarts]
      rw [ih cs l₂ (by simpa using h)]

/-- An `event Transfer` ABI entry with per-parameter indexed flags. -/
def c8Ev : AbiItem :=
  { ty := "event", name? := some "Transfer",
    inputs := [⟨"address", some "from", true⟩, ⟨"address", some "to", true⟩,
               ⟨"uint256", some "value", false⟩],
    outputs := [], stateMutability := none }

/-- An ABI holding only `c8Ev`. -/
def c8EventAbi : List AbiItem := [c8Ev]

/-- C8 counterexample: safesmith's ABI synthesis (the variant the claim
cites) emits NO line for an `event` entry — the generated file contains
no occurrence of `event` at all. -/
theorem c8_counterexample :
    strHasSub (ssAbiContent "IFoo" c8EventAbi) "event" = false
    ∧ ssAbiContent "IFoo" c8EventAbi
        = "// SPDX-License-Identifier: MIT\npragma solidity ^0.8.0;\n\ninterface IFoo \x7b\n\x7d" := by
  exact ⟨by rfl, by rfl⟩

/-- C8 amended: the event behaviour the claim describes belongs to the
foundry_wrap variant of `_create_interface_from_abi`: there, every event
entry with a non-empty name contributes its
`event <name>(<type> [indexed] <param>, ...);` line, where each parameter
is marked `indexed` exactly per its ABI flag — while the safesmith
variant emits no line starting with `    event ` for any ABI. -/
theorem c8_amended :
    (∀ (name : String) (abi : List AbiItem), ∀ item ∈ abi,
      item.ty = "event" → item.name?.getD "" ≠ "" →
      fwEventLine item ∈ fwAbiLines name abi)
    ∧ (∀ (t nm : String),
        fwEventParamStr ⟨t, some nm, true⟩ = t ++ " indexed " ++ nm
        ∧ fwEventParamStr ⟨t, some nm, false⟩ = t ++ " " ++ nm)
    ∧ ∀ (name : String) (abi : List AbiItem), ∀ l ∈ ssAbiLines name abi,
        listStarts l.data "    event ".data = false := by
  refine ⟨?_, fun t nm => ⟨rfl, rfl⟩, ?_⟩
  · intro name abi item hmem hev hnm
    rw [fwAbiLines]
    refine List.mem_append.mpr (.inl (List.mem_append.mpr (.inr ?_)))
    refine List.mem_flatMap.mpr ⟨item, hmem, ?_⟩
    simp only [fwItemLines, hev, if_neg hnm]
    simp
  · intro name abi l hl
    rw [ssAbiLines] at hl
    rcases List.mem_append.mp hl with hl1 | hl2
    · rcases List.mem_append.mp hl1 with hl3 | hl4
      · simp only [List.mem_cons, List.not_mem_nil, or_false] at hl3
        rcases hl3 with rfl | rfl | rfl | rfl
        · rfl
        · rfl
        · rfl
        · show listStarts ("interface " ++ name ++ " " ++ braceOStr).data "    event ".data = false
          have hdata : ("interface " ++ name ++ " " ++ braceOStr).data
              = "interface ".data ++ (name.data ++ (" ".data ++ braceOStr.data)) := by
            simp [List.append_assoc]
          rw [hdata, listStarts_append_left _ _ _ (by decide)]
          rfl
      · obtain ⟨item, _, hline⟩ := List.mem_flatMap.mp hl4
        rw [ssItemLines] at hline
        by_cases hf : item.ty = "function"
        · rw [if_pos hf] at hline
          by_cases hn : item.name?.getD "" = ""
          · rw [if_pos hn] at hline
            exact absurd hline (List.not_mem_nil _)
          · rw [if_neg hn] at hline
            rcases List.mem_singleton.mp hline with rfl
            show listStarts (ssFuncLine item).data "    event ".data = false
            have hdata : (ssFuncLine item).data
                = "    function ".data
                  ++ ((item.name?.getD "").data ++ ("(".data
                    ++ ((String.intercalate ", " (item.inputs.map (fun p => ssAddMemory p.ty ++ " " ++ p.name?.getD "arg"))).data
                    ++ (") external".data ++ ((mutabilitySuffix item.stateMutability).data
                    ++ ((returnsClause (item.outputs.map (fun p => ssAddMemory p.ty))).data ++ ";".data)))))) := by
              simp [ssFuncLine, List.append_assoc]
            rw [hdata, listStarts_append_left _ _ _ (by decide)]
            rfl
        · rw [if_neg hf] at hline
          exact absurd hline (List.not_mem_nil _)
    · simp only [List.mem_singleton] at hl2
      subst hl2
      rfl

/-- C8 amended witness: the fwrap event line for the concrete `Transfer`
entry is present in the generated line list, and no safesmith line of the
same ABI starts with `    event `. -/
theorem c8_amended_witness :
    fwEventLine c8Ev ∈ fwAbiLines "IFoo" c8EventAbi
    ∧ listStarts (ssAbiContent "IFoo" c8EventAbi).data "    event ".data = false :=
  ⟨c8_amended.1 "IFoo" c8EventAbi c8Ev (by decide) (by rfl) (by decide),
   by rfl⟩

/-! ## Claim C9 -/

/-- An environment whose preset index holds an entry under the raw,
unsanitized name `My Token!`. -/
def envC9 : Env := { envC3 with
  presets := [("My Token!", "/presets/MyTok.sol")]
  fs := [("/presets/MyTok.sol", c5PresetContent)] }

/-- C9 counterexample: resolving `My Token!` through the preset path
produces the file `test/interfaces/My Token!.sol` — the RAW name, not the
sanitized `MyToken.sol` — while the declaration inside the file IS
renamed to the sanitized `interface MyToken`.  So the same sanitized name
is NOT used for both the file name and the declared name. -/
theorem c9_counterexample :
    processInterface envC9 "My Token!" (some c1Addr)
      = .ok ("test/interfaces/My Token!.sol",
          [("/presets/MyTok.sol", c5PresetContent),
           ("test/interfaces/My Token!.sol",
             "interface MyToken \x7b\n    function x() external;\n\x7d\n")])
    ∧ "test/interfaces/My Token!.sol" ≠ "test/interfaces/MyToken.sol"
    ∧ strHasSub "interface MyToken \x7b\n    function x() external;\n\x7d\n"
        "interface MyToken" = true := by
  exact ⟨by rfl, by decide, by rfl⟩

/-- C9 amended: sanitization itself behaves exactly as claimed
(`"My Token!"` ↦ `MyToken`, `"123Foo"` ↦ `I123Foo`; in general the result
is the word-character filtrate, `I`-prefixed when it does not start with
a letter, hence always a nonempty all-word-character name starting with a
letter), and the sanitized name is always used for the DECLARED interface
name written by `_write_interface_file`; but the copy-based resolution
paths name the file after the raw requested name
(`<local>/<raw name>.sol`), so file name and declared name agree only
when the raw name is already sanitized. -/
theorem c9_amended :
    sanitizeInterfaceName "My Token!" = .ok "MyToken"
    ∧ sanitizeInterfaceName "123Foo" = .ok "I123Foo"
    ∧ (∀ name s : String, sanitizeInterfaceName name = .ok s →
        (s = stripWordChars name ∨ s = "I" ++ stripWordChars name)
        ∧ s.data.all isWordChar = true
        ∧ ∃ hd tl, s.data = hd :: tl ∧ hd.isAlpha = true)
    ∧ (∀ (fs : FileSys) (path content name s : String),
        sanitizeInterfaceName name = .ok s →
        writeInterfaceFile fs path content name
          = .ok (updateKey fs path (renameIfaceDecl content s)))
    ∧ ∀ (env : Env) (fs : FileSys) (srcPath name c s : String),
        lookupKey fs srcPath = some c → sanitizeInterfaceName name = .ok s →
        copyToLocal env fs srcPath name
          = .ok (updateKey fs (env.localDir ++ "/" ++ name ++ ".sol")
              (renameIfaceDecl c s)) := by
  refine ⟨by rfl, by rfl, ?_, ?_, ?_⟩
  · intro name s h
    cases heq : (stripWordChars name).data with
    | nil =>
      simp only [sanitizeInterfaceName, heq] at h
      simp at h
    | cons c cs =>
      simp only [sanitizeInterfaceName, heq] at h
      have hall : ∀ x ∈ c :: cs, isWordChar x = true := by
        intro x hx
        have : x ∈ (stripWordChars name).data := heq ▸ hx
        exact (List.mem_filter.mp this).2
      have hstr : String.mk (c :: cs) = stripWordChars name := by
        rw [← heq]
      by_cases ha : c.isAlpha
      · rw [if_pos ha] at h
        injection h with h2
        subst h2
        refine ⟨.inl hstr, ?_, c, cs, rfl, ha⟩
        exact List.all_eq_true.mpr hall
      · rw [if_neg ha] at h
        injection h with h2
        subst h2
        refine ⟨.inr ?_, ?_, 'I', c :: cs, rfl, by decide⟩
        · apply String.ext
          show 'I' :: c :: cs = ("I" ++ stripWordChars name).data
          rw [String.data_append, ← heq]
          rfl
        · refine List.all_eq_true.mpr ?_
          intro x hx
          rcases List.mem_cons.mp hx with h1 | h2
          · subst h1; decide
          · exact hall x h2
  · intro fs path content name s h
    simp only [writeInterfaceFile, h]
    rfl
  · intro env fs srcPath name c s h1 h2
    simp only [copyToLocal, h1, writeInterfaceFile, h2]
    rfl

/-- C9 amended witness: the sanitize characterization applied to
`My Token!`, and the copy path applied to a concrete file system. -/
theorem c9_amended_witness :
    (("MyToken" = stripWordChars "My Token!" ∨ "MyToken" = "I" ++ stripWordChars "My Token!")
      ∧ "MyToken".data.all isWordChar = true
      ∧ ∃ hd tl, "MyToken".data = hd :: tl ∧ hd.isAlpha = true)
    ∧ copyToLocal envC3 [("/p.sol", "interface A \x7b\x7d")] "/p.sol" "My Token!"
        = .ok (updateKey [("/p.sol", "interface A \x7b\x7d")]
            "test/interfaces/My Token!.sol"
            (renameIfaceDecl "interface A \x7b\x7d" "MyToken")) :=
  ⟨c9_amended.2.2.1 "My Token!" "MyToken" (by rfl),
   c9_amended.2.2.2.2 envC3 [("/p.sol", "interface A \x7b\x7d")] "/p.sol" "My Token!"
     "interface A \x7b\x7d" "MyToken" (by rfl) (by rfl)⟩

/-! ## Claim C10 -/

/-- C10: a name whose word-character filtrate is empty makes
`sanitize_interface_name` raise (`IndexError` at `sanitized[0]`), which
every decorated caller — here `_write_interface_file` — converts to an
`InterfaceError`; and a successful sanitization never returns the empty
string. -/
theorem c10_empty_sanitize :
    (∀ name : String, stripWordChars name = "" →
      sanitizeInterfaceName name = .error (.indexE "string index out of range"))
    ∧ (∀ (fs : FileSys) (path content name : String), stripWordChars name = "" →
      writeInterfaceFile fs path content name
        = .error (.interfaceE "string index out of range"))
    ∧ ∀ name s : String, sanitizeInterfaceName name = .ok s → s ≠ "" := by
  have part1 : ∀ name : String, stripWordChars name = "" →
      sanitizeInterfaceName name = .error (.indexE "string index out of range") := by
    intro name h
    have hd : (stripWordChars name).data = [] := by rw [h]
    simp only [sanitizeInterfaceName, hd]
  refine ⟨part1, ?_, ?_⟩
  · intro fs path content name h
    simp only [writeInterfaceFile, part1 name h]
    rfl
  · intro name s h hs
    cases heq : (stripWordChars name).data with
    | nil =>
      simp only [sanitizeInterfaceName, heq] at h
      simp at h
    | cons c cs =>
      simp only [sanitizeInterfaceName, heq] at h
      by_cases ha : c.isAlpha
      · rw [if_pos ha] at h
        injection h with h2
        subst h2
        exact absurd (congrArg String.data hs) (by simp)
      · rw [if_neg ha] at h
        injection h with h2
        subst h2
        exact absurd (congrArg String.data hs) (by simp)

/-- C10 witness: the all-punctuation name `!!!`. -/
theorem c10_empty_sanitize_witness :
    sanitizeInterfaceName "!!!" = .error (.indexE "string index out of range")
    ∧ writeInterfaceFile [] "p.sol" "interface A \x7b\x7d" "!!!"
        = .error (.interfaceE "string index out of range") :=
  ⟨c10_empty_sanitize.1 "!!!" (by rfl),
   c10_empty_sanitize.2.1 [] "p.sol" "interface A \x7b\x7d" "!!!" (by rfl)⟩

end FWrap
